import Mathlib

/-!
Verification of the IMAP quarantine proxy in src/backend/main.py.

The development shallowly embeds the proxy core: the command parser
(parse_command), literal detection and reading (the regex in read_literal),
the amount extractor (amount_pattern together with extract_meta_and_amount),
the policy (should_quarantine), the quarantine store endpoints
(approve_quarantined_email, delete_quarantined_email, plus the dict insert
performed by handle_append), and one iteration of the session command loop
(handle_append, forward_and_relay, relay_until_tag, handle_fetch, dispatch).

Conventions of the embedding:
- Python byte strings are modeled as Lean Strings; every byte the proxy
  manipulates structurally is ASCII, where Chars and bytes coincide.
- Python floats carrying monetary amounts are modeled as exact rationals.
- Socket streams are modeled explicitly: the bytes available from the client
  after the command line are a String, and the lines the upstream server will
  send are a List String.  readexactly raising IncompleteReadError on a short
  stream is modeled as Option.none.
- The quarantine_store dict is modeled as its key-to-value mapping
  (String to Option of record); insertion order is irrelevant to every claim.
- MIME parsing (BytesParser) is third-party library code; the session model
  takes the composed Message Inspector as a function parameter, while the
  bespoke extraction over the decoded subject and body text is embedded
  exactly (extract_meta_and_amount below).
-/

namespace ImapProxy

/-- Python bytes whitespace, as stripped by bytes.strip(). -/
def isPyWS (c : Char) : Bool :=
  c = ' ' || c = '\t' || c = '\n' || c = '\r' || c = '\x0b' || c = '\x0c'

/-- Python bytes.strip(): remove ASCII whitespace from both ends. -/
def pyStrip (s : String) : String :=
  ⟨((s.data.dropWhile (fun c => isPyWS c)).reverse.dropWhile (fun c => isPyWS c)).reverse⟩

/-- ASCII uppercase of one character, as bytes.upper() acts bytewise. -/
def asciiUpperChar (c : Char) : Char :=
  if 'a' ≤ c ∧ c ≤ 'z' then Char.ofNat (c.toNat - 32) else c

/-- ASCII lowercase of one character, for the case-insensitive regex flag. -/
def asciiLowerChar (c : Char) : Char :=
  if 'A' ≤ c ∧ c ≤ 'Z' then Char.ofNat (c.toNat + 32) else c

/-- Python bytes.upper(). -/
def pyUpper (s : String) : String :=
  ⟨s.data.map asciiUpperChar⟩

/-- Split a character list at every space, keeping empty parts, as Python
split with a single-space separator does before maxsplit is applied. -/
def splitOnSpace : List Char → List (List Char)
  | [] => [[]]
  | c :: cs =>
    if c = ' ' then [] :: splitOnSpace cs
    else
      match splitOnSpace cs with
      | [] => [[c]]
      | p :: ps => (c :: p) :: ps

/-- Rejoin parts with single spaces, undoing splits beyond the maxsplit. -/
def joinWithSpace : List String → String
  | [] => ""
  | [a] => a
  | a :: rest => a ++ " " ++ joinWithSpace rest

/-- Python s.split(b" ", 2): split on single spaces, at most two splits,
the remainder (further spaces included) kept intact as the third part. -/
def pySplit2 (s : String) : List String :=
  match (splitOnSpace s.data).map (fun p => (⟨p⟩ : String)) with
  | [] => []
  | [a] => [a]
  | [a, b] => [a, b]
  | a :: b :: rest => [a, b, joinWithSpace rest]

/-- Python line.split(b" ", 1)[0]: the bytes before the first space. -/
def pyFirstToken (s : String) : String :=
  ⟨s.data.takeWhile (fun c => c ≠ ' ')⟩

/-- ImapProxySession.parse_command: strip the line, split into at most three
parts on spaces, uppercase the verb, preserve the tag verbatim. -/
def parse_command (line : String) : String × String × String :=
  match pySplit2 (pyStrip line) with
  | [] => ("", "", "")
  | [a] => (a, "", "")
  | [a, b] => (a, pyUpper b, "")
  | a :: b :: c :: _ => (a, pyUpper b, c)

/-- Value of a list of ASCII digit characters. -/
def digitsToNat (ds : List Char) : Nat :=
  ds.foldl (fun acc c => acc * 10 + (c.toNat - 48)) 0

/-- The regex search in ImapProxySession.read_literal: a backslash-brace,
one or more digits, brace, dollar anchored at the end of rest.strip().
re.search finds the final brace-digits-brace group at the tail, if any;
equivalently, reading the stripped rest backwards: a closing brace, a
nonempty run of digits, an opening brace. -/
def parseLiteralTail (rest : String) : Option Nat :=
  match (pyStrip rest).data.reverse with
  | '}' :: cs =>
    let ds := cs.takeWhile (fun c => c.isDigit)
    if ds.isEmpty then none
    else
      match cs.drop ds.length with
      | '{' :: _ => some (digitsToNat ds.reverse)
      | _ => none
  | _ => none

/-- ImapProxySession.read_literal: when rest carries a trailing literal
length N, read exactly N + 2 bytes from the client stream and drop the
final two unconditionally (literal sliced to all but the last two bytes);
when the stream is shorter, readexactly raises (modeled none); when no
literal is detected, return rest with an empty literal, consuming nothing.
Result: (rest as returned, literal passed on, bytes consumed). -/
def read_literal (rest : String) (clientStream : String) : Option (String × String × Nat) :=
  match parseLiteralTail rest with
  | none => some (rest, "", 0)
  | some size =>
    if clientStream.length ≥ size + 2 then
      some (rest, clientStream.take size, size + 2)
    else
      none

/-- EmailMeta: subject, sender and extracted amount (Python float, modeled
as an exact rational). -/
structure EmailMeta where
  subject : String
  sender : String
  amount : ℚ
deriving DecidableEq

/-- The configuration the policy reads: QUARANTINE_ENABLED and
FILTER_MIN_AMOUNT from config.py. -/
structure Config where
  quarantineEnabled : Bool
  filterMinAmount : ℚ

/-- should_quarantine: deliver when quarantine is disabled, otherwise hold
exactly when the extracted amount is at least the configured threshold. -/
def should_quarantine (cfg : Config) (meta : EmailMeta) : Bool :=
  if !cfg.quarantineEnabled then false
  else decide (cfg.filterMinAmount ≤ meta.amount)

/-- The keyword alternatives of amount_pattern, in the order written:
amount, total, sum, subtotal, grand total.  At any one text position at
most one alternative can match, as no keyword is a prefix of another up to
their first difference. -/
def keywordList : List (List Char) :=
  ["amount".data, "total".data, "sum".data, "subtotal".data, "grand total".data]

/-- Case-insensitive literal match of k at the head of cs. -/
def ciMatchesAt : List Char → List Char → Bool
  | [], _ => true
  | _ :: _, [] => false
  | k :: ks, c :: cs => asciiLowerChar c = asciiLowerChar k && ciMatchesAt ks cs

/-- First keyword alternative matching at this position, with its length. -/
def matchKeywordAt (cs : List Char) : Option Nat :=
  keywordList.findSome? (fun k => if ciMatchesAt k cs then some k.length else none)

/-- Rational value of the captured group digits-separator-digits after the
comma-to-period normalization: an integer part and a decimal fraction. -/
def ratOfDigits (d1 d2 : List Char) : ℚ :=
  (digitsToNat d1 : ℚ) + (digitsToNat d2 : ℚ) / (10 : ℚ) ^ d2.length

/-- The tail of amount_pattern after a keyword matched: at most ten
non-digits (backtracking forces the count to be exactly the non-digit run,
never more than ten), then one or more digits, one period or comma, then
two or more digits, all runs taken greedily.  Returns the captured value
and the characters consumed after the keyword. -/
def tryNumber (cs : List Char) : Option (ℚ × Nat) :=
  let gap := (cs.takeWhile (fun c => !c.isDigit)).length
  if gap > 10 then none
  else
    let cs1 := cs.drop gap
    let d1 := cs1.takeWhile (fun c => c.isDigit)
    if d1.isEmpty then none
    else
      match cs1.drop d1.length with
      | [] => none
      | sep :: cs2 =>
        if sep = '.' || sep = ',' then
          let d2 := cs2.takeWhile (fun c => c.isDigit)
          if d2.length ≥ 2 then some (ratOfDigits d1 d2, gap + d1.length + 1 + d2.length)
          else none
        else none

/-- amount_pattern.finditer: scan left to right; at each position try the
keyword alternatives then the numeric tail; on a match yield the captured
value and resume after the match end (matches never overlap); otherwise
advance one character.  Fuel bounds the scan by the text length; every
step consumes at least one character, so the initial length is enough. -/
def scanAmountsF : Nat → List Char → List ℚ
  | 0, _ => []
  | _, [] => []
  | fuel + 1, c :: cs =>
    match matchKeywordAt (c :: cs) with
    | some klen =>
      match tryNumber ((c :: cs).drop klen) with
      | some (v, used) => v :: scanAmountsF fuel ((c :: cs).drop (klen + used))
      | none => scanAmountsF fuel cs
    | none => scanAmountsF fuel cs

/-- All captured amounts of amount_pattern.finditer over one text. -/
def findAmounts (s : String) : List ℚ :=
  scanAmountsF s.data.length s.data

/-- extract_meta_and_amount, given the decoded Subject header, From header
and aggregated plain-text body (the MIME walk and header access are library
code; the bespoke part is the scan of subject then body, taking the maximum
of all captured values with initial amount zero).  The float() call never
fails: every capture is digits, one separator, digits. -/
def extract_meta_and_amount (subject sender body : String) : EmailMeta × ℚ :=
  let amt := ((findAmounts subject) ++ (findAmounts body)).foldl max 0
  ({ subject := subject, sender := sender, amount := amt }, amt)

/-- One quarantine_store entry: metadata, message content and status string.
The source stores the content base64-encoded for JSON transport; the store
model keeps the raw bytes themselves, an equivalent injective encoding. -/
structure QRecord where
  meta : EmailMeta
  content : String
  status : String
deriving DecidableEq

/-- The quarantine_store dict, as its key-to-value mapping. -/
def Store : Type := String → Option QRecord

/-- Dict assignment: store key gets the record. -/
def storeSet (st : Store) (id : String) (r : QRecord) : Store :=
  fun x => if x = id then some r else st x

/-- approve_quarantined_email: 404 and an unchanged store when the id is
absent; otherwise set the status to approved and return the updated record. -/
def approve_quarantined_email (st : Store) (id : String) : Store × Except Nat QRecord :=
  match st id with
  | none => (st, Except.error 404)
  | some r =>
    (storeSet st id { r with status := "approved" }, Except.ok { r with status := "approved" })

/-- delete_quarantined_email: 404 and an unchanged store when the id is
absent; otherwise set the status to the string deleted and return the
updated record. -/
def delete_quarantined_email (st : Store) (id : String) : Store × Except Nat QRecord :=
  match st id with
  | none => (st, Except.error 404)
  | some r =>
    (storeSet st id { r with status := "deleted" }, Except.ok { r with status := "deleted" })

/-- Modelled from the spec: the abstract dispositions held, approved and
discarded of a Held Message.  The code encodes them as the status strings
held, approved and deleted; the delete endpoint is the spec discard. -/
inductive Disposition
  | held
  | approved
  | discarded
deriving DecidableEq

/-- Modelled from the spec: which abstract disposition a stored status
string denotes. -/
def dispositionOfStatus (s : String) : Option Disposition :=
  if s = "held" then some Disposition.held
  else if s = "approved" then some Disposition.approved
  else if s = "deleted" then some Disposition.discarded
  else none

/-- The quarantine operations that touch the store: the insert performed by
handle_append (status held, fresh uuid identifier), the two REST mutations,
and the read-only endpoints. -/
inductive QOp
  | insert (id : String) (meta : EmailMeta) (content : String)
  | approve (id : String)
  | delete (id : String)
  | getOne (id : String)
  | listAll

/-- Effect of one quarantine operation on the store. -/
def applyOp (st : Store) : QOp → Store
  | QOp.insert id m c => storeSet st id { meta := m, content := c, status := "held" }
  | QOp.approve id => (approve_quarantined_email st id).1
  | QOp.delete id => (delete_quarantined_email st id).1
  | QOp.getOne _ => st
  | QOp.listAll => st

/-- Effect of a sequence of quarantine operations, applied left to right. -/
def applyOps (st : Store) : List QOp → Store
  | [] => st
  | op :: ops => applyOps (applyOp st op) ops

/-- Every insert in the sequence uses an identifier absent from the store at
the moment it runs — the uuid4 freshness the source relies on. -/
def FreshInserts : Store → List QOp → Prop
  | _, [] => True
  | st, op :: ops =>
    (∀ id m c, op = QOp.insert id m c → st id = none) ∧ FreshInserts (applyOp st op) ops

/-- Observable effects of one iteration of the session command loop:
chunks written upstream, lines written to the client, the quarantine insert
if any, bytes consumed from the client stream beyond the command line, and
whether the session stays alive. -/
structure StepEffects where
  toServer : List String
  toClient : List String
  insertQ : Option (String × QRecord)
  clientConsumed : Nat
  alive : Bool
deriving DecidableEq

/-- Python bytes.startswith over character lists. -/
def charsStart : List Char → List Char → Bool
  | [], _ => true
  | _ :: _, [] => false
  | a :: as, b :: bs => a = b && charsStart as bs

/-- Python srv.startswith(p). -/
def strStarts (p srv : String) : Bool :=
  charsStart p.data srv.data

/-- relay_until_tag: copy upstream lines to the client until upstream EOF
or a line starting with the tag and a space, that line included. -/
def relay_until_tag (tag : String) : List String → List String
  | [] => []
  | srv :: more =>
    if srv = "" then []
    else if strStarts (tag ++ " ") srv then [srv]
    else srv :: relay_until_tag tag more

/-- forward_and_relay: write the raw client line upstream, then relay
upstream lines to the client until the tagged completion, the tag taken
from the first space-delimited token of the raw line.  Nothing further is
read from the client: no literal bytes are ever copied on this path. -/
def forward_and_relay (first_line : String) (serverLines : List String) : StepEffects :=
  { toServer := [first_line]
    toClient := relay_until_tag (pyFirstToken first_line) serverLines
    insertQ := none
    clientConsumed := 0
    alive := true }

/-- handle_append: read the literal (none of the continuation handshake is
performed toward the client), inspect the message, then either quarantine
it — insert with status held, answer the client with the synthesized OK
line, write nothing upstream — or deliver it: write the reconstructed
command line and then immediately the raw bytes plus CRLF upstream (no wait
for any upstream continuation), then relay until the tagged completion.
The inspect parameter is the composition of BytesParser with
extract_meta_and_amount over the raw literal bytes. -/
def handle_append (inspect : String → EmailMeta) (cfg : Config) (qid : String)
    (tag rest : String) (clientStream : String) (serverLines : List String) :
    Option StepEffects :=
  match read_literal rest clientStream with
  | none => none
  | some (args, literal, used) =>
    let meta := inspect literal
    if should_quarantine cfg meta then
      some
        { toServer := []
          toClient := [tag ++ " OK APPEND completed (held by proxy)\r\n"]
          insertQ := some (qid, { meta := meta, content := literal, status := "held" })
          clientConsumed := used
          alive := true }
    else
      some
        { toServer := [tag ++ " APPEND " ++ args ++ "\r\n", literal ++ "\r\n"]
          toClient := relay_until_tag tag serverLines
          insertQ := none
          clientConsumed := used
          alive := true }

/-- One iteration of ImapProxySession.handle: parse the line and dispatch —
APPEND to handle_append, FETCH re-emitted from the parsed pieces, LOGOUT
forwarded verbatim and the session marked dead, everything else forwarded
verbatim.  none models the session aborting inside handle_append before
any response is produced. -/
def session_step (inspect : String → EmailMeta) (cfg : Config) (qid : String)
    (line : String) (clientStream : String) (serverLines : List String) :
    Option StepEffects :=
  match parse_command line with
  | (tag, cmd, rest) =>
    if cmd = "APPEND" then
      handle_append inspect cfg qid tag rest clientStream serverLines
    else if cmd = "FETCH" then
      some (forward_and_relay (tag ++ " FETCH " ++ rest ++ "\r\n") serverLines)
    else if cmd = "LOGOUT" then
      some { forward_and_relay line serverLines with alive := false }
    else
      some (forward_and_relay line serverLines)

/-! Helper lemmas shared by several results. -/

theorem storeSet_self (st : Store) (id : String) (r : QRecord) :
    storeSet st id r id = some r := by
  unfold storeSet
  simp

theorem storeSet_of_ne (st : Store) (id x : String) (r : QRecord) (h : x ≠ id) :
    storeSet st id r x = st x := by
  unfold storeSet
  simp [h]

theorem read_literal_of_length (rest clientStream : String) (n : Nat)
    (hn : parseLiteralTail rest = some n) (hlen : clientStream.length ≥ n + 2) :
    read_literal rest clientStream = some (rest, clientStream.take n, n + 2) := by
  unfold read_literal
  rw [hn]
  simp [hlen]

theorem read_literal_of_short (rest clientStream : String) (n : Nat)
    (hn : parseLiteralTail rest = some n) (hlen : clientStream.length < n + 2) :
    read_literal rest clientStream = none := by
  unfold read_literal
  rw [hn]
  have h2 : ¬ clientStream.length ≥ n + 2 := by omega
  simp [h2]

theorem handle_append_hold (inspect : String → EmailMeta) (cfg : Config)
    (qid tag rest clientStream : String) (serverLines : List String)
    (args literal : String) (used : Nat)
    (hread : read_literal rest clientStream = some (args, literal, used))
    (hq : should_quarantine cfg (inspect literal) = true) :
    handle_append inspect cfg qid tag rest clientStream serverLines =
      some
        { toServer := []
          toClient := [tag ++ " OK APPEND completed (held by proxy)\r\n"]
          insertQ := some (qid, { meta := inspect literal, content := literal, status := "held" })
          clientConsumed := used
          alive := true } := by
  unfold handle_append
  rw [hread]
  simp [hq]

theorem handle_append_deliver (inspect : String → EmailMeta) (cfg : Config)
    (qid tag rest clientStream : String) (serverLines : List String)
    (args literal : String) (used : Nat)
    (hread : read_literal rest clientStream = some (args, literal, used))
    (hq : should_quarantine cfg (inspect literal) = false) :
    handle_append inspect cfg qid tag rest clientStream serverLines =
      some
        { toServer := [tag ++ " APPEND " ++ args ++ "\r\n", literal ++ "\r\n"]
          toClient := relay_until_tag tag serverLines
          insertQ := none
          clientConsumed := used
          alive := true } := by
  unfold handle_append
  rw [hread]
  simp [hq]

/-! Results about the claims. -/

/-- Claim C1: for every APPEND whose inspected message the policy decides to
hold, the session inserts the raw message into the quarantine store with
status held, answers the client with exactly the tagged line
TAG OK APPEND completed (held by proxy) CRLF, and writes zero bytes for
that APPEND to the upstream connection. -/
theorem held_append_effects (inspect : String → EmailMeta) (cfg : Config)
    (qid tag rest clientStream : String) (serverLines : List String)
    (args literal : String) (used : Nat)
    (hread : read_literal rest clientStream = some (args, literal, used))
    (hq : should_quarantine cfg (inspect literal) = true) :
    handle_append inspect cfg qid tag rest clientStream serverLines =
      some
        { toServer := []
          toClient := [tag ++ " OK APPEND completed (held by proxy)\r\n"]
          insertQ := some (qid, { meta := inspect literal, content := literal, status := "held" })
          clientConsumed := used
          alive := true } :=
  handle_append_hold inspect cfg qid tag rest clientStream serverLines args literal used hread hq

/-- Witness for C1 at a concrete held APPEND. -/
theorem held_append_effects_witness :
    handle_append (fun m => { subject := m, sender := "", amount := 2500 })
      { quarantineEnabled := true, filterMinAmount := 1000 } "q1" "a2" "INBOX {5}" "hello\r\n" [] =
      some
        { toServer := []
          toClient := ["a2 OK APPEND completed (held by proxy)\r\n"]
          insertQ := some ("q1",
            { meta := { subject := "hello", sender := "", amount := 2500 }
              content := "hello"
              status := "held" })
          clientConsumed := 7
          alive := true } :=
  held_append_effects (fun m => { subject := m, sender := "", amount := 2500 })
    { quarantineEnabled := true, filterMinAmount := 1000 } "q1" "a2" "INBOX {5}" "hello\r\n" []
    "INBOX {5}" "hello" 7 rfl (by simp [should_quarantine]; norm_num)

/-- Claim C2: the hold decision is a pure function of the extracted metadata
and the configuration — hold exactly when quarantine is enabled and the
amount is at least the threshold, equality at the threshold holds, and two
metadata values with the same amount always decide the same way. -/
theorem policy_pure_function (cfg : Config) (m : EmailMeta) :
    (should_quarantine cfg m = true ↔
      cfg.quarantineEnabled = true ∧ cfg.filterMinAmount ≤ m.amount) ∧
    (cfg.quarantineEnabled = true → m.amount = cfg.filterMinAmount →
      should_quarantine cfg m = true) ∧
    (∀ m2 : EmailMeta, m.amount = m2.amount →
      should_quarantine cfg m = should_quarantine cfg m2) := by
  refine ⟨?_, ?_, ?_⟩
  · unfold should_quarantine
    cases hcfg : cfg.quarantineEnabled <;> simp [hcfg]
  · intro he ha
    unfold should_quarantine
    simp [he, ha]
  · intro m2 ha
    unfold should_quarantine
    rw [ha]

/-- Witness for C2: enabled with amount exactly at the threshold holds. -/
theorem policy_pure_function_witness :
    should_quarantine { quarantineEnabled := true, filterMinAmount := 100 }
      { subject := "", sender := "", amount := 100 } = true :=
  (policy_pure_function { quarantineEnabled := true, filterMinAmount := 100 }
    { subject := "", sender := "", amount := 100 }).2.1 rfl rfl

/-- Shared evaluation: the extractor on a message whose subject is exactly
Total colon space 12,345.67 and whose body is empty.  The capture of
amount_pattern is the digits-comma-digits group 12,345 — the two-or-more
digit run after the separator stops at the period — and the normalization
turns the comma into a period, so the value is 12.345, not 12345.67. -/
theorem extract_total_comma_eval :
    (extract_meta_and_amount "Total: 12,345.67" "billing@example.com" "").2 = 2469 / 200 := by
  have h1 : (extract_meta_and_amount "Total: 12,345.67" "billing@example.com" "").2 =
      max 0 (ratOfDigits ['1', '2'] ['3', '4', '5']) := rfl
  have hv : ratOfDigits ['1', '2'] ['3', '4', '5'] = 2469 / 200 := by
    rw [ratOfDigits, show digitsToNat ['1', '2'] = 12 from by decide,
      show digitsToNat ['3', '4', '5'] = 345 from by decide]
    norm_num
  rw [h1, hv, max_eq_right (by norm_num : (0 : ℚ) ≤ 2469 / 200)]

/-- Counterexample to claim C3 as stated: a message containing the text
Total colon space 12,345.67 yields amount 12.345, not 12345.67. -/
theorem total_comma_not_concatenated :
    (extract_meta_and_amount "Total: 12,345.67" "billing@example.com" "").2 ≠ 1234567 / 100 := by
  rw [extract_total_comma_eval]
  norm_num

/-- Claim C3 amended: on the message whose subject is the text
Total colon space 12,345.67 the extractor returns 12.345 (the regex
captures 12,345 and comma-to-period normalization reads it as a decimal
point), and whenever the regex finds no match in subject and body the
amount is 0. -/
theorem amount_extraction_amended :
    ((extract_meta_and_amount "Total: 12,345.67" "billing@example.com" "").2 = 2469 / 200) ∧
    (∀ subject sender body : String,
      findAmounts subject = [] → findAmounts body = [] →
      (extract_meta_and_amount subject sender body).2 = 0) := by
  constructor
  · exact extract_total_comma_eval
  · intro subject sender body h1 h2
    simp [extract_meta_and_amount, h1, h2]

/-- Witness for the amended C3 at a concrete matchless message. -/
theorem amount_extraction_amended_witness :
    (extract_meta_and_amount "hello world" "x@y" "plain text").2 = 0 :=
  amount_extraction_amended.2 "hello world" "x@y" "plain text" rfl rfl

/-- Claim C4 (divergence): on a held APPEND with a synchronizing literal
the only line the session ever writes to the client is the synthesized
tagged OK — the continuation line + Ready for literal data CRLF is never
emitted before (or after) reading the literal bytes. -/
theorem continuation_never_sent_to_client :
    (handle_append (fun m => { subject := m, sender := "", amount := 2500 })
        { quarantineEnabled := true, filterMinAmount := 1000 } "q1" "a2" "INBOX {5}" "hello\r\n"
        []).map StepEffects.toClient =
      some ["a2 OK APPEND completed (held by proxy)\r\n"] ∧
    "+ Ready for literal data\r\n" ∉ ["a2 OK APPEND completed (held by proxy)\r\n"] := by
  constructor
  · rw [handle_append_hold (fun m => { subject := m, sender := "", amount := 2500 })
      { quarantineEnabled := true, filterMinAmount := 1000 } "q1" "a2" "INBOX {5}" "hello\r\n" []
      "INBOX {5}" "hello" 7 rfl (by simp [should_quarantine]; norm_num)]
    rfl
  · decide

/-- Claim C5 (divergence): on a delivered APPEND the session writes the
reconstructed command line and then immediately the literal bytes plus
CRLF upstream, without awaiting any continuation — here upstream has sent
nothing at all, yet both chunks are written. -/
theorem deliver_no_continuation_wait :
    handle_append (fun m => { subject := m, sender := "", amount := 0 })
      { quarantineEnabled := true, filterMinAmount := 1000 } "q9" "a3" "INBOX {4}" "BODY\r\n" [] =
      some
        { toServer := ["a3 APPEND INBOX {4}\r\n", "BODY\r\n"]
          toClient := []
          insertQ := none
          clientConsumed := 6
          alive := true } := by
  rw [handle_append_deliver (fun m => { subject := m, sender := "", amount := 0 })
    { quarantineEnabled := true, filterMinAmount := 1000 } "q9" "a3" "INBOX {4}" "BODY\r\n" []
    "INBOX {4}" "BODY" 6 rfl (by simp [should_quarantine])]
  rfl

/-- Claim C7 (divergence): literal-length parsing accepts the synchronizing
form only — a rest ending in the non-synchronizing brace-digits-plus-brace
form is not recognized, so read_literal consumes zero literal bytes and
hands an empty message to inspection. -/
theorem literal_plus_not_recognized :
    parseLiteralTail "INBOX {5}" = some 5 ∧
    parseLiteralTail "INBOX {5+}" = none ∧
    read_literal "INBOX {5+}" "ABCDE\r\n" = some ("INBOX {5+}", "", 0) := by
  refine ⟨by decide, by decide, by decide⟩

/-- Counterexample to claim C6 as stated: a lowercase fetch command is
re-emitted upstream with the verb uppercased, so the upstream bytes differ
from the client bytes; and for a literal-bearing non-APPEND command (LOGIN
with a four-byte literal) only the command line is written upstream — the
literal bytes available from the client are never copied (zero client
bytes consumed beyond the line). -/
theorem transparency_counterexample :
    ((session_step (fun m => { subject := m, sender := "", amount := 0 })
        { quarantineEnabled := true, filterMinAmount := 1000 } "q0" "a1 fetch 1\r\n" ""
        ["a1 OK FETCH completed\r\n"]).map StepEffects.toServer = some ["a1 FETCH 1\r\n"]) ∧
    (["a1 FETCH 1\r\n"] ≠ (["a1 fetch 1\r\n"] : List String)) ∧
    ((session_step (fun m => { subject := m, sender := "", amount := 0 })
        { quarantineEnabled := true, filterMinAmount := 1000 } "q0" "a5 LOGIN user {4}\r\n"
        "pass\r\n" ["+ go ahead\r\n", "a5 OK LOGIN completed\r\n"]).map
        (fun r => (r.toServer, r.clientConsumed)) = some (["a5 LOGIN user {4}\r\n"], 0)) := by
  refine ⟨by decide, by decide, by decide⟩

/-- Claim C6 amended: every non-APPEND command writes exactly one chunk
upstream and consumes no client bytes beyond the line — the raw line
verbatim, except FETCH, which is re-emitted from the parsed tag and rest
with the verb uppercased; in particular no trailing literal bytes are ever
copied upstream for non-APPEND commands. -/
theorem non_append_forwarding (inspect : String → EmailMeta) (cfg : Config)
    (qid line clientStream : String) (serverLines : List String) (tag cmd rest : String)
    (hp : parse_command line = (tag, cmd, rest)) (hcmd : cmd ≠ "APPEND") :
    (session_step inspect cfg qid line clientStream serverLines).map
        (fun r => (r.toServer, r.clientConsumed, r.insertQ)) =
      some (if cmd = "FETCH" then [tag ++ " FETCH " ++ rest ++ "\r\n"] else [line], 0, none) := by
  unfold session_step
  rw [hp]
  by_cases hf : cmd = "FETCH"
  · simp [hcmd, hf, forward_and_relay]
  · by_cases hl : cmd = "LOGOUT" <;> simp [hcmd, hf, hl, forward_and_relay]

/-- Witness for the amended C6 at a concrete NOOP command. -/
theorem non_append_forwarding_witness :
    (session_step (fun m => { subject := m, sender := "", amount := 0 })
        { quarantineEnabled := false, filterMinAmount := 0 } "q0" "a1 NOOP\r\n" "" []).map
        (fun r => (r.toServer, r.clientConsumed, r.insertQ)) = some (["a1 NOOP\r\n"], 0, none) := by
  have h := non_append_forwarding (fun m => { subject := m, sender := "", amount := 0 })
    { quarantineEnabled := false, filterMinAmount := 0 } "q0" "a1 NOOP\r\n" "" [] "a1" "NOOP" ""
    rfl (by decide)
  rw [if_neg (by decide)] at h
  exact h

/-- Presence is preserved: no quarantine operation removes a record. -/
theorem applyOp_keeps (st : Store) (op : QOp) (id : String) (r : QRecord)
    (hb : st id = some r) : ∃ r2, applyOp st op id = some r2 := by
  cases op with
  | insert i m c =>
    simp only [applyOp]
    by_cases h : id = i
    · subst h
      rw [storeSet_self]
      exact ⟨_, rfl⟩
    · rw [storeSet_of_ne _ _ _ _ h]
      exact ⟨r, hb⟩
  | approve i =>
    simp only [applyOp]
    unfold approve_quarantined_email
    cases hsi : st i with
    | none => exact ⟨r, hb⟩
    | some q =>
      simp only []
      by_cases h : id = i
      · subst h
        rw [storeSet_self]
        exact ⟨_, rfl⟩
      · rw [storeSet_of_ne _ _ _ _ h]
        exact ⟨r, hb⟩
  | delete i =>
    simp only [applyOp]
    unfold delete_quarantined_email
    cases hsi : st i with
    | none => exact ⟨r, hb⟩
    | some q =>
      simp only []
      by_cases h : id = i
      · subst h
        rw [storeSet_self]
        exact ⟨_, rfl⟩
      · rw [storeSet_of_ne _ _ _ _ h]
        exact ⟨r, hb⟩
  | getOne i => exact ⟨r, hb⟩
  | listAll => exact ⟨r, hb⟩

/-- One step of C8: no single operation moves an existing non-held record
back to held, inserts using fresh identifiers. -/
theorem applyOp_no_reheld (st : Store) (op : QOp) (id : String) (r r2 : QRecord)
    (hfresh : ∀ i m c, op = QOp.insert i m c → st i = none)
    (hb : st id = some r) (hs : r.status ≠ "held")
    (ha : applyOp st op id = some r2) : r2.status ≠ "held" := by
  cases op with
  | insert i m c =>
    have hni : st i = none := hfresh i m c rfl
    simp only [applyOp] at ha
    by_cases h : id = i
    · rw [h, hni] at hb
      cases hb
    · rw [storeSet_of_ne _ _ _ _ h, hb] at ha
      injection ha with h2
      subst h2
      exact hs
  | approve i =>
    simp only [applyOp] at ha
    unfold approve_quarantined_email at ha
    cases hsi : st i with
    | none =>
      rw [hsi] at ha
      simp only [] at ha
      rw [hb] at ha
      injection ha with h2
      subst h2
      exact hs
    | some q =>
      rw [hsi] at ha
      simp only [] at ha
      by_cases h : id = i
      · subst h
        rw [storeSet_self] at ha
        injection ha with h2
        subst h2
        simp
      · rw [storeSet_of_ne _ _ _ _ h, hb] at ha
        injection ha with h2
        subst h2
        exact hs
  | delete i =>
    simp only [applyOp] at ha
    unfold delete_quarantined_email at ha
    cases hsi : st i with
    | none =>
      rw [hsi] at ha
      simp only [] at ha
      rw [hb] at ha
      injection ha with h2
      subst h2
      exact hs
    | some q =>
      rw [hsi] at ha
      simp only [] at ha
      by_cases h : id = i
      · subst h
        rw [storeSet_self] at ha
        injection ha with h2
        subst h2
        simp
      · rw [storeSet_of_ne _ _ _ _ h, hb] at ha
        injection ha with h2
        subst h2
        exact hs
  | getOne i =>
    simp only [applyOp] at ha
    rw [hb] at ha
    injection ha with h2
    subst h2
    exact hs
  | listAll =>
    simp only [applyOp] at ha
    rw [hb] at ha
    injection ha with h2
    subst h2
    exact hs

/-- Claim C8: over any sequence of quarantine operations whose inserts use
fresh identifiers, a record whose status has left held never returns to
held. -/
theorem store_monotonic (ops : List QOp) :
    ∀ (st : Store) (id : String) (r r2 : QRecord),
      FreshInserts st ops → st id = some r → r.status ≠ "held" →
      applyOps st ops id = some r2 → r2.status ≠ "held" := by
  induction ops with
  | nil =>
    intro st id r r2 _ hb hs ha
    unfold applyOps at ha
    rw [hb] at ha
    injection ha with h2
    subst h2
    exact hs
  | cons op ops ih =>
    intro st id r r2 hf hb hs ha
    obtain ⟨hfr, hf2⟩ := hf
    obtain ⟨rmid, hmid⟩ := applyOp_keeps st op id r hb
    have hsmid : rmid.status ≠ "held" := applyOp_no_reheld st op id r rmid hfr hb hs hmid
    exact ih (applyOp st op) id rmid r2 hf2 hmid hsmid ha

/-- Witness for C8: a concrete store with one approved record, a fresh
insert and a delete later its status is deleted, not held. -/
theorem store_monotonic_witness :
    (applyOps
        (fun x => if x = "a"
          then some { meta := { subject := "s", sender := "f", amount := 5 },
                      content := "c", status := "approved" }
          else none)
        [QOp.insert "b" { subject := "t", sender := "g", amount := 7 } "d", QOp.delete "a"]
        "a" =
      some { meta := { subject := "s", sender := "f", amount := 5 },
             content := "c", status := "deleted" }) ∧
    ({ meta := { subject := "s", sender := "f", amount := 5 },
       content := "c", status := "deleted" } : QRecord).status ≠ "held" := by
  refine ⟨rfl, ?_⟩
  refine store_monotonic
    [QOp.insert "b" { subject := "t", sender := "g", amount := 7 } "d", QOp.delete "a"]
    (fun x => if x = "a"
      then some { meta := { subject := "s", sender := "f", amount := 5 },
                  content := "c", status := "approved" }
      else none)
    "a"
    { meta := { subject := "s", sender := "f", amount := 5 }, content := "c", status := "approved" }
    { meta := { subject := "s", sender := "f", amount := 5 }, content := "c", status := "deleted" }
    ?_ rfl (by decide) rfl
  refine ⟨?_, ?_, trivial⟩
  · intro i m c h
    cases h
    rfl
  · intro i m c h
    exact QOp.noConfusion h

/-- Claim C9: the delete endpoint on a present id sets the status to
deleted — the disposition the specification calls discarded — and returns
the updated record; on an absent id it returns 404 with the store
unchanged. -/
theorem delete_endpoint_contract (st : Store) (id : String) :
    (∀ r : QRecord, st id = some r →
      delete_quarantined_email st id =
        (storeSet st id { r with status := "deleted" }, Except.ok { r with status := "deleted" }) ∧
      (delete_quarantined_email st id).1 id = some { r with status := "deleted" } ∧
      dispositionOfStatus "deleted" = some Disposition.discarded) ∧
    (st id = none → delete_quarantined_email st id = (st, Except.error 404)) := by
  constructor
  · intro r hr
    have h1 : delete_quarantined_email st id =
        (storeSet st id { r with status := "deleted" }, Except.ok { r with status := "deleted" }) := by
      unfold delete_quarantined_email
      rw [hr]
    refine ⟨h1, ?_, by decide⟩
    rw [h1]
    exact storeSet_self st id _
  · intro h
    unfold delete_quarantined_email
    rw [h]

/-- Witness for C9 at a concrete one-record store, both branches. -/
theorem delete_endpoint_contract_witness :
    (delete_quarantined_email
        (fun x => if x = "a"
          then some { meta := { subject := "s", sender := "f", amount := 5 },
                      content := "c", status := "held" }
          else none) "a" =
      (storeSet
          (fun x => if x = "a"
            then some { meta := { subject := "s", sender := "f", amount := 5 },
                        content := "c", status := "held" }
            else none) "a"
          { meta := { subject := "s", sender := "f", amount := 5 },
            content := "c", status := "deleted" },
        Except.ok { meta := { subject := "s", sender := "f", amount := 5 },
                    content := "c", status := "deleted" })) ∧
    (delete_quarantined_email
        (fun x => if x = "a"
          then some { meta := { subject := "s", sender := "f", amount := 5 },
                      content := "c", status := "held" }
          else none) "b" =
      ((fun x => if x = "a"
          then some { meta := { subject := "s", sender := "f", amount := 5 },
                      content := "c", status := "held" }
          else none), Except.error 404)) :=
  ⟨((delete_endpoint_contract
      (fun x => if x = "a"
        then some { meta := { subject := "s", sender := "f", amount := 5 },
                    content := "c", status := "held" }
        else none) "a").1
      { meta := { subject := "s", sender := "f", amount := 5 }, content := "c", status := "held" }
      rfl).1,
   (delete_endpoint_contract
      (fun x => if x = "a"
        then some { meta := { subject := "s", sender := "f", amount := 5 },
                    content := "c", status := "held" }
        else none) "b").2 rfl⟩

/-- Claim C10: with a trailing synchronizing literal of N bytes, the session
consumes exactly N plus two client bytes after the command line, the result
depends only on the first N of them (the final two are discarded
unconditionally, CRLF or not), any quarantined content is exactly those N
bytes; and when fewer than N plus two bytes are available the session
aborts with no response at all for that APPEND. -/
theorem append_literal_framing (inspect : String → EmailMeta) (cfg : Config)
    (qid tag rest clientStream : String) (serverLines : List String) (n : Nat)
    (hn : parseLiteralTail rest = some n) :
    (clientStream.length ≥ n + 2 →
      ∃ res : StepEffects,
        handle_append inspect cfg qid tag rest clientStream serverLines = some res ∧
        res.clientConsumed = n + 2 ∧
        (∀ stream2 : String, stream2.take n = clientStream.take n → stream2.length ≥ n + 2 →
          handle_append inspect cfg qid tag rest stream2 serverLines = some res) ∧
        (∀ pid prec, res.insertQ = some (pid, prec) → prec.content = clientStream.take n)) ∧
    (clientStream.length < n + 2 →
      handle_append inspect cfg qid tag rest clientStream serverLines = none ∧
      (∀ line : String, parse_command line = (tag, "APPEND", rest) →
        session_step inspect cfg qid line clientStream serverLines = none)) := by
  constructor
  · intro hlen
    by_cases hq : should_quarantine cfg (inspect (clientStream.take n)) = true
    · refine ⟨_, handle_append_hold inspect cfg qid tag rest clientStream serverLines rest
        (clientStream.take n) (n + 2) (read_literal_of_length rest clientStream n hn hlen) hq,
        rfl, ?_, ?_⟩
      · intro s2 ht hl2
        rw [handle_append_hold inspect cfg qid tag rest s2 serverLines rest (s2.take n) (n + 2)
          (read_literal_of_length rest s2 n hn hl2) (by rw [ht]; exact hq)]
        rw [ht]
      · intro pid prec hins
        injection hins with h2
        injection h2 with h3 h4
        rw [← h4]
    · rw [Bool.not_eq_true] at hq
      refine ⟨_, handle_append_deliver inspect cfg qid tag rest clientStream serverLines rest
        (clientStream.take n) (n + 2) (read_literal_of_length rest clientStream n hn hlen) hq,
        rfl, ?_, ?_⟩
      · intro s2 ht hl2
        rw [handle_append_deliver inspect cfg qid tag rest s2 serverLines rest (s2.take n) (n + 2)
          (read_literal_of_length rest s2 n hn hl2) (by rw [ht]; exact hq)]
        rw [ht]
      · intro pid prec hins
        exact Option.noConfusion hins
  · intro hshort
    have hnone : handle_append inspect cfg qid tag rest clientStream serverLines = none := by
      unfold handle_append
      rw [read_literal_of_short rest clientStream n hn hshort]
    refine ⟨hnone, ?_⟩
    intro line hp
    unfold session_step
    rw [hp]
    simp [hnone]

/-- Witness for C10: a three-byte literal with a non-CRLF two-byte tail is
consumed as five bytes, the result ignores the discarded tail, and a
two-byte stream aborts. -/
theorem append_literal_framing_witness :
    ((handle_append (fun s => { subject := s, sender := "", amount := 0 })
        { quarantineEnabled := true, filterMinAmount := 1 } "q" "a7" "INBOX {3}" "abXYZ" []).map
        StepEffects.clientConsumed = some 5) ∧
    (handle_append (fun s => { subject := s, sender := "", amount := 0 })
        { quarantineEnabled := true, filterMinAmount := 1 } "q" "a7" "INBOX {3}" "abXYZ" [] =
      handle_append (fun s => { subject := s, sender := "", amount := 0 })
        { quarantineEnabled := true, filterMinAmount := 1 } "q" "a7" "INBOX {3}" "abX12" []) ∧
    (handle_append (fun s => { subject := s, sender := "", amount := 0 })
        { quarantineEnabled := true, filterMinAmount := 1 } "q" "a7" "INBOX {3}" "ab" [] = none) := by
  obtain ⟨res, h1, h2, h3, h4⟩ :=
    (append_literal_framing (fun s => { subject := s, sender := "", amount := 0 })
      { quarantineEnabled := true, filterMinAmount := 1 } "q" "a7" "INBOX {3}" "abXYZ" [] 3
      (by decide)).1 (by decide)
  refine ⟨?_, ?_, ?_⟩
  · rw [h1]
    simp [h2]
  · rw [h1, h3 "abX12" (by decide) (by decide)]
  · exact ((append_literal_framing (fun s => { subject := s, sender := "", amount := 0 })
      { quarantineEnabled := true, filterMinAmount := 1 } "q" "a7" "INBOX {3}" "ab" [] 3
      (by decide)).2 (by decide)).1

end ImapProxy
